import Mathlib

/-!
# SmartAttend server — shallow embedding

A Lean model of the SmartAttend in-memory attendance server
(Express handlers over mutable arrays `sessions` and `students`).
Handlers are modelled as pure functions from the registry state (a
`List Session`) and the request data to the new state, the HTTP-level
result, and the list of socket broadcast events emitted during the call.
Timestamps (JS `Date` / `Date.now()`) are milliseconds as `Nat`,
supplied as an explicit `now` argument; the random draw inside
`Math.random().toString(36).substr(2, 8)` is supplied as an explicit
suffix string.
-/

namespace SmartAttend

/-- An attendance record, as pushed onto `session.attendees`. -/
structure AttendanceRecord where
  studentId : String
  studentName : String
  timestamp : Nat
  method : String
  deriving Repr, DecidableEq

/-- A session object, as constructed in the `/api/sessions/start` handler. -/
structure Session where
  id : Nat
  sessionCode : String
  professorId : String
  professorName : String
  className : String
  qrCode : String
  isActive : Bool
  startTime : Nat
  endTime : Option Nat
  attendees : List AttendanceRecord
  deriving Repr, DecidableEq

/-- The authenticated requester (`req.user`, decoded from the JWT). -/
structure User where
  id : String
  username : String
  role : String
  name : String
  department : Option String
  rollNo : Option String
  deriving Repr, DecidableEq

/-- A roster entry of the static `students` array. -/
structure Student where
  id : String
  name : String
  department : String
  attendance : Nat
  marks : Nat
  deriving Repr, DecidableEq

/-- The payload of an `io.emit('attendanceUpdate', ...)` broadcast. -/
structure AttendanceUpdate where
  sessionCode : String
  studentId : String
  studentName : String
  totalAttendees : Nat
  timestamp : Nat
  deriving Repr, DecidableEq

/-- The static seed roster (`students` in the source). -/
def students : List Student :=
  [ { id := "CS001", name := "Alice Johnson", department := "CSE", attendance := 94, marks := 91 },
    { id := "CS002", name := "Bob Smith", department := "CSE", attendance := 74, marks := 72 },
    { id := "CS003", name := "Carol Davis", department := "CSE", attendance := 80, marks := 78 },
    { id := "CS004", name := "David Wilson", department := "CSE", attendance := 69, marks := 65 },
    { id := "EC001", name := "Eva Brown", department := "ECE", attendance := 88, marks := 85 },
    { id := "EC002", name := "Frank Miller", department := "ECE", attendance := 92, marks := 88 },
    { id := "EE001", name := "Grace Lee", department := "EEE", attendance := 85, marks := 82 },
    { id := "IT001", name := "Henry Taylor", department := "IT", attendance := 91, marks := 89 },
    { id := "ME001", name := "Ivy Anderson", department := "MECH", attendance := 78, marks := 75 } ]

/-- JS truthiness for an optional string argument: `undefined` and the
empty string are falsy, so `x || fallback` picks `fallback` exactly when
`x` is absent or empty. -/
def jsOrElse (x : Option String) (fallback : String) : String :=
  match x with
  | none => fallback
  | some s => if s = "" then fallback else s

/-- `generateSessionCode`: the string template
`ATT-` + `Date.now()` + `-` + `Math.random().toString(36).substr(2, 8)`.
The wall-clock milliseconds and the random suffix are the function's
explicit inputs. -/
def generateSessionCode (nowMs : Nat) (randSuffix : String) : String :=
  "ATT-" ++ Nat.repr nowMs ++ "-" ++ randSuffix

/-- Modelled from the spec: the external QR codec (`QRCode.toDataURL`) is
out of scope and treated as a pure function from the session code to an
image payload. -/
def qrToDataURL (code : String) : String :=
  "dataurl:" ++ code

/-- Replace the first element satisfying `p` (the one JS `Array.find`
returns and whose in-place mutation the handlers perform). -/
def updateFirst (p : Session → Bool) (f : Session → Session) : List Session → List Session
  | [] => []
  | s :: rest => if p s then f s :: rest else s :: updateFirst p f rest

/-- Result of `POST /api/sessions/start`. -/
inductive StartResult where
  | forbidden
  | ok (session : Session)
  deriving Repr, DecidableEq

/-- Result of `POST /api/attendance/mark`. -/
inductive MarkResult where
  | notFound
  | alreadyMarked
  | marked (studentName : String)
  deriving Repr, DecidableEq

/-- Result of `POST /api/sessions/:sessionId/end`. -/
inductive EndResult where
  | notFound
  | forbidden
  | ok
  deriving Repr, DecidableEq

/-- `POST /api/sessions/start`: role gate, then build a session from the
generated code and append it to the registry. Emits no broadcast. -/
def startSession (sessions : List Session) (user : User) (className : Option String)
    (now : Nat) (randSuffix : String) :
    List Session × StartResult × List AttendanceUpdate :=
  if user.role ≠ "faculty" then
    (sessions, .forbidden, [])
  else
    let sessionCode := generateSessionCode now randSuffix
    let session : Session :=
      { id := sessions.length + 1
        sessionCode := sessionCode
        professorId := user.id
        professorName := user.name
        className := jsOrElse className "Computer Science 101"
        qrCode := qrToDataURL sessionCode
        isActive := true
        startTime := now
        endTime := none
        attendees := [] }
    (sessions ++ [session], .ok session, [])

/-- The predicate of the session lookup in `POST /api/attendance/mark`. -/
def matchesCode (sessionCode : String) (s : Session) : Bool :=
  s.sessionCode == sessionCode && s.isActive

/-- `POST /api/attendance/mark`: find the active session with the code,
check the already-marked guard, otherwise push a record and emit one
`attendanceUpdate`. -/
def markAttendance (sessions : List Session) (sessionCode studentId : String)
    (studentName : Option String) (now : Nat) :
    List Session × MarkResult × List AttendanceUpdate :=
  match sessions.find? (matchesCode sessionCode) with
  | none => (sessions, .notFound, [])
  | some session =>
    if session.attendees.any (fun att => att.studentId == studentId) then
      (sessions, .alreadyMarked, [])
    else
      let record : AttendanceRecord :=
        { studentId := studentId
          studentName := jsOrElse studentName ("Student " ++ studentId)
          timestamp := now
          method := "qr" }
      let sessions' := updateFirst (matchesCode sessionCode)
        (fun s => { s with attendees := s.attendees ++ [record] }) sessions
      (sessions', .marked record.studentName,
        [ { sessionCode := sessionCode
            studentId := studentId
            studentName := record.studentName
            totalAttendees := session.attendees.length + 1
            timestamp := now } ])

/-- `POST /api/sessions/:sessionId/end`: find the session by id, check
ownership, then set `isActive := false` and overwrite `endTime`.
Emits no broadcast. -/
def endSession (sessions : List Session) (user : User) (sessionId : Nat) (now : Nat) :
    List Session × EndResult × List AttendanceUpdate :=
  match sessions.find? (fun s => s.id == sessionId) with
  | none => (sessions, .notFound, [])
  | some session =>
    if session.professorId ≠ user.id then
      (sessions, .forbidden, [])
    else
      (updateFirst (fun s => s.id == sessionId)
        (fun s => { s with isActive := false, endTime := some now }) sessions, .ok, [])

/-- `Math.round (sum / len)` for natural `sum` and positive natural
`len`: the integer nearest to the exact mean, halves rounding up
(`Math.round` half-up behaviour). Written as a floor of
`(2 * sum + len) / (2 * len)`. -/
def roundDiv (sum len : Nat) : Nat :=
  (2 * sum + len) / (2 * len)

/-- `Math.round (sum / len)` with JS division semantics made explicit:
when `len = 0` the JS quotient is not a finite number (`0/0` is `NaN`,
`x/0` is `Infinity`) and `Math.round` of it is again non-finite; the
non-finite outcome is encoded as `none`. -/
def jsRoundDiv? (sum len : Nat) : Option Nat :=
  if len = 0 then none else some (roundDiv sum len)

/-- One row of the principal analytics response. -/
structure DeptAnalytics where
  department : String
  avgAttendance : Nat
  atRiskStudents : Nat
  totalStudents : Nat
  remark : String
  deriving Repr, DecidableEq

/-- `students.filter(s => s.department === dept)`. -/
def deptStudentsOf (roster : List Student) (dept : String) : List Student :=
  roster.filter (fun s => s.department == dept)

/-- `list.reduce((sum, s) => sum + s.attendance, 0)`. -/
def sumAttendance (l : List Student) : Nat :=
  l.foldl (fun sum s => sum + s.attendance) 0

/-- `list.reduce((sum, s) => sum + s.marks, 0)`. -/
def sumMarks (l : List Student) : Nat :=
  l.foldl (fun sum s => sum + s.marks) 0

/-- The per-department computation inside `GET /api/analytics/principal`:
the body of `departments.map(dept => ...)`. The empty-department guard
(`deptStudents.length > 0 ? ... : 0`) is the ternary of the source. -/
def deptSummary (roster : List Student) (dept : String) : DeptAnalytics :=
  let deptStudents := deptStudentsOf roster dept
  let avgAttendance :=
    if deptStudents.length > 0 then
      roundDiv (sumAttendance deptStudents) deptStudents.length
    else 0
  let atRisk := (deptStudents.filter (fun s => s.attendance < 75)).length
  { department := dept
    avgAttendance := avgAttendance
    atRiskStudents := atRisk
    totalStudents := deptStudents.length
    remark :=
      if avgAttendance ≥ 85 then "Excellent"
      else if avgAttendance ≥ 75 then "Good"
      else "Needs Improvement" }

/-- The fixed department list of `GET /api/analytics/principal`. -/
def departments : List String :=
  ["CSE", "ECE", "EEE", "IT", "MECH"]

/-- `GET /api/analytics/principal` (after the role gate). -/
def principalAnalytics (roster : List Student) : List DeptAnalytics :=
  departments.map (deptSummary roster)

/-- An entry of the HOD at-risk list. -/
structure AtRiskEntry where
  id : String
  name : String
  attendance : Nat
  status : String
  deriving Repr, DecidableEq

/-- The HOD analytics response body. -/
structure HodAnalytics where
  department : Option String
  totalStudents : Nat
  avgAttendance : Option Nat
  atRiskStudents : List AtRiskEntry
  deriving Repr, DecidableEq

/-- The department filter used by the HOD and faculty analytics:
`s.department === req.user.department` (false whenever the requester has
no department claim). -/
def inUserDept (user : User) (s : Student) : Bool :=
  user.department == some s.department

/-- `GET /api/analytics/hod` (after the role gate): filters the roster by
the caller's department and divides by `deptStudents.length` with no
guard for the empty case. -/
def hodAnalytics (roster : List Student) (user : User) : HodAnalytics :=
  let deptStudents := roster.filter (inUserDept user)
  let atRiskStudents := deptStudents.filter (fun s => s.attendance < 75)
  { department := user.department
    totalStudents := deptStudents.length
    avgAttendance := jsRoundDiv? (sumAttendance deptStudents) deptStudents.length
    atRiskStudents := atRiskStudents.map (fun s =>
      { id := s.id
        name := s.name
        attendance := s.attendance
        status :=
          if s.attendance < 60 then "Critical"
          else if s.attendance < 70 then "Warning"
          else "Needs Counseling" }) }

/-- The `classStats` object of the faculty analytics response. -/
structure ClassStats where
  totalStudents : Nat
  avgAttendance : Option Nat
  avgMarks : Option Nat
  atRiskCount : Nat
  deriving Repr, DecidableEq

/-- The faculty analytics response body. -/
structure FacultyAnalytics where
  students : List Student
  classStats : ClassStats
  deriving Repr, DecidableEq

/-- `GET /api/analytics/faculty` (after the role gate): same unguarded
division by the filtered length, for both attendance and marks. -/
def facultyAnalytics (roster : List Student) (user : User) : FacultyAnalytics :=
  let facultyStudents := roster.filter (inUserDept user)
  { students := facultyStudents
    classStats :=
      { totalStudents := facultyStudents.length
        avgAttendance := jsRoundDiv? (sumAttendance facultyStudents) facultyStudents.length
        avgMarks := jsRoundDiv? (sumMarks facultyStudents) facultyStudents.length
        atRiskCount := (facultyStudents.filter (fun s => s.attendance < 75)).length } }

/-- Boolean no-duplicates check on a list of strings. -/
def noDup : List String → Bool
  | [] => true
  | x :: xs => !xs.contains x && noDup xs

/-- The at-most-one-record-per-participant invariant of a session:
no participant id occurs twice in the attendee sequence. -/
def uniqueAttendees (s : Session) : Bool :=
  noDup (s.attendees.map (fun r => r.studentId))

/-- Whether a mark outcome is the fresh-append success. -/
def MarkResult.isMarked : MarkResult → Bool
  | .marked _ => true
  | _ => false

/-- Reference decimal representation: the digit characters of `n`,
most significant first. Used to reason about the `Date.now()` component
of a session code. -/
def decRepr (n : Nat) : List Char :=
  if h : n < 10 then [Nat.digitChar n]
  else
    have : n / 10 < n := Nat.div_lt_self (by omega) (by omega)
    decRepr (n / 10) ++ [Nat.digitChar (n % 10)]

/-- A demo faculty account (from the seeded demo users). -/
def demoFaculty : User :=
  { id := "3", username := "faculty", role := "faculty", name := "Dr. Faculty",
    department := some "CSE", rollNo := none }

/-- A second faculty identity, not the owner of `demoSession`. -/
def otherFaculty : User :=
  { id := "99", username := "faculty2", role := "faculty", name := "Dr. Other",
    department := some "ECE", rollNo := none }

/-- A demo student account (from the seeded demo users). -/
def demoStudent : User :=
  { id := "4", username := "student", role := "student", name := "Alice Johnson",
    department := none, rollNo := some "CS001" }

/-- A demo HOD account whose department matches no roster entry. -/
def mathHod : User :=
  { id := "7", username := "hod2", role := "hod", name := "Prof. Math",
    department := some "MATH", rollNo := none }

/-- A concrete active session owned by `demoFaculty`. -/
def demoSession : Session :=
  { id := 1, sessionCode := generateSessionCode 100 "k5j2m9qp", professorId := "3",
    professorName := "Dr. Faculty", className := "Computer Science 101",
    qrCode := qrToDataURL (generateSessionCode 100 "k5j2m9qp"), isActive := true,
    startTime := 100, endTime := none, attendees := [] }

/-- The record appended by marking `CS001` on `demoSession` at time 5. -/
def demoRecord : AttendanceRecord :=
  { studentId := "CS001", studentName := "Student CS001", timestamp := 5, method := "qr" }

/-- `demoSession` after that mark. -/
def demoMarked : Session :=
  { demoSession with attendees := [demoRecord] }

/-- The broadcast emitted by that mark. -/
def demoEvent : AttendanceUpdate :=
  { sessionCode := demoSession.sessionCode, studentId := "CS001",
    studentName := "Student CS001", totalAttendees := 1, timestamp := 5 }

/-! ## Helper lemmas on `List.find?` and `updateFirst` -/

theorem find?_split {α : Type} {p : α → Bool} {l : List α} {s : α}
    (h : l.find? p = some s) :
    ∃ pre post, l = pre ++ s :: post ∧ (∀ x ∈ pre, p x = false) ∧ p s = true := by
  induction l with
  | nil => simp [List.find?] at h
  | cons a l ih =>
    by_cases hpa : p a
    · rw [List.find?_cons_of_pos _ hpa] at h
      obtain rfl : a = s := by simpa using h
      exact ⟨[], l, rfl, by simp, hpa⟩
    · rw [List.find?_cons_of_neg _ hpa] at h
      obtain ⟨pre, post, rfl, hpre, hs⟩ := ih h
      refine ⟨a :: pre, post, rfl, ?_, hs⟩
      intro x hx
      rcases List.mem_cons.mp hx with rfl | hx
      · simpa using hpa
      · exact hpre x hx

theorem find?_append_first {α : Type} {p : α → Bool} {pre : List α}
    (hpre : ∀ x ∈ pre, p x = false) {s : α} (hs : p s = true) (post : List α) :
    (pre ++ s :: post).find? p = some s := by
  induction pre with
  | nil => simp [List.find?_cons_of_pos _ hs]
  | cons a pre ih =>
    have ha : p a = false := hpre a (by simp)
    simp only [List.cons_append]
    rw [List.find?_cons_of_neg _ (by simp [ha])]
    exact ih (fun x hx => hpre x (by simp [hx]))

theorem updateFirst_append {p : Session → Bool} {f : Session → Session}
    {pre : List Session} (hpre : ∀ x ∈ pre, p x = false) {s : Session} (hs : p s = true)
    (post : List Session) :
    updateFirst p f (pre ++ s :: post) = pre ++ f s :: post := by
  induction pre with
  | nil => simp [updateFirst, hs]
  | cons a pre ih =>
    have ha : p a = false := hpre a (by simp)
    simp only [List.cons_append, updateFirst, ha, Bool.false_eq_true, if_false,
      List.append_eq]
    rw [ih (fun x hx => hpre x (by simp [hx]))]

/-- Characterization of a fresh (appending) run of `markAttendance`:
the registry splits around the first active session with the code, the
result state appends exactly one record at the end of that session's
attendee list, and exactly one broadcast is emitted. -/
theorem mark_marked_split {st st1 : List Session} {code sid : String}
    {nm : Option String} {now : Nat} {rn : String} {ev : List AttendanceUpdate}
    (h : markAttendance st code sid nm now = (st1, .marked rn, ev)) :
    ∃ pre s post,
      st = pre ++ s :: post ∧
      (∀ x ∈ pre, matchesCode code x = false) ∧ matchesCode code s = true ∧
      (s.attendees.any (fun att => att.studentId == sid)) = false ∧
      rn = jsOrElse nm ("Student " ++ sid) ∧
      st1 = pre ++
        { s with attendees := s.attendees ++ [⟨sid, rn, now, "qr"⟩] } :: post ∧
      ev = [⟨code, sid, rn, s.attendees.length + 1, now⟩] := by
  cases hfind : st.find? (matchesCode code) with
  | none => simp [markAttendance, hfind] at h
  | some session =>
    by_cases hmarked : (session.attendees.any (fun att => att.studentId == sid)) = true
    · simp [markAttendance, hfind, hmarked] at h
    · have hmarked' : (session.attendees.any (fun att => att.studentId == sid)) = false :=
        Bool.eq_false_iff.mpr hmarked
      simp only [markAttendance, hfind, hmarked', Bool.false_eq_true, if_false,
        Prod.mk.injEq, MarkResult.marked.injEq] at h
      obtain ⟨hst1, hrn, hev⟩ := h
      obtain ⟨pre, post, rfl, hpre, hs⟩ := find?_split hfind
      refine ⟨pre, session, post, rfl, hpre, hs, hmarked', hrn.symm, ?_, ?_⟩
      · rw [← hst1, updateFirst_append hpre hs, hrn]
      · rw [← hev, hrn]

theorem mark_of_find?_none {st : List Session} {code sid : String} {nm : Option String}
    {now : Nat} (h : st.find? (matchesCode code) = none) :
    markAttendance st code sid nm now = (st, .notFound, []) := by
  simp [markAttendance, h]

theorem mark_of_already {st : List Session} {code sid : String} {nm : Option String}
    {now : Nat} {s : Session} (hfind : st.find? (matchesCode code) = some s)
    (hmem : (s.attendees.any (fun att => att.studentId == sid)) = true) :
    markAttendance st code sid nm now = (st, .alreadyMarked, []) := by
  simp [markAttendance, hfind, hmem]

/-- Characterization of an already-marked run of `markAttendance`. -/
theorem mark_already_split {st st1 : List Session} {code sid : String}
    {nm : Option String} {now : Nat} {ev : List AttendanceUpdate}
    (h : markAttendance st code sid nm now = (st1, .alreadyMarked, ev)) :
    st1 = st ∧ ev = [] ∧ ∃ s, st.find? (matchesCode code) = some s ∧
      (s.attendees.any (fun att => att.studentId == sid)) = true := by
  cases hfind : st.find? (matchesCode code) with
  | none => simp [markAttendance, hfind] at h
  | some s =>
    by_cases hm : (s.attendees.any (fun att => att.studentId == sid)) = true
    · rw [mark_of_already hfind hm] at h
      simp only [Prod.mk.injEq] at h
      obtain ⟨h1, -, h3⟩ := h
      exact ⟨h1.symm, h3.symm, s, rfl, hm⟩
    · simp [markAttendance, hfind, Bool.eq_false_iff.mpr hm] at h

theorem end_of_find?_none {st : List Session} {u : User} {sid now : Nat}
    (h : st.find? (fun x => x.id == sid) = none) :
    endSession st u sid now = (st, .notFound, []) := by
  simp [endSession, h]

theorem end_of_other_owner {st : List Session} {u : User} {sid now : Nat} {s : Session}
    (hfind : st.find? (fun x => x.id == sid) = some s)
    (hown : s.professorId ≠ u.id) :
    endSession st u sid now = (st, .forbidden, []) := by
  simp [endSession, hfind, hown]

/-- A successful `endSession` run on a decomposed registry. -/
theorem end_ok_eq {u : User} {sid now : Nat} {s : Session}
    {pre : List Session} (hpre : ∀ x ∈ pre, (x.id == sid) = false)
    (hs : (s.id == sid) = true) (hown : s.professorId = u.id) (post : List Session) :
    endSession (pre ++ s :: post) u sid now =
      (pre ++ { s with isActive := false, endTime := some now } :: post, .ok, []) := by
  have hfind := find?_append_first hpre hs post
  simp [endSession, hfind, hown, updateFirst_append hpre hs]

theorem noDup_iff_Nodup (l : List String) : noDup l = true ↔ l.Nodup := by
  induction l with
  | nil => simp [noDup]
  | cons x xs ih => simp [noDup, ih, List.nodup_cons]

/-- Full characterization of a fresh (appending) run of `markAttendance`
on a registry decomposed around the first active session carrying the
requested code. -/
theorem mark_fresh_eq {pre post : List Session} {s : Session} {code sid : String}
    {nm : Option String} {now : Nat}
    (hpre : ∀ x ∈ pre, matchesCode code x = false)
    (hs : matchesCode code s = true)
    (hnew : (s.attendees.any (fun att => att.studentId == sid)) = false) :
    markAttendance (pre ++ s :: post) code sid nm now =
      (pre ++ { s with attendees := s.attendees ++
          [{ studentId := sid, studentName := jsOrElse nm ("Student " ++ sid),
             timestamp := now, method := "qr" }] } :: post,
       .marked (jsOrElse nm ("Student " ++ sid)),
       [{ sessionCode := code, studentId := sid,
          studentName := jsOrElse nm ("Student " ++ sid),
          totalAttendees := s.attendees.length + 1, timestamp := now }]) := by
  have hfind := find?_append_first hpre hs post
  simp [markAttendance, hfind, hnew, updateFirst_append hpre hs]

/-- Any session arising from appending one record with `studentId = sid`
still matches the same code predicate. -/
theorem matchesCode_append_record (code : String) (s : Session) (r : AttendanceRecord) :
    matchesCode code { s with attendees := s.attendees ++ [r] } = matchesCode code s := by
  simp [matchesCode]

/-! ## Claim theorems -/

/-- C1: a second `mark` with the same participant id against the same
session leaves the registry (hence the session's attendee sequence and its
length) unchanged, returns the "already recorded" success outcome
(`alreadyMarked`), and emits no broadcast; moreover every session keeps at
most one attendance record per participant id. -/
theorem mark_second_call_idempotent
    {st st1 : List Session} {code sid : String} {nm1 nm2 : Option String} {t1 t2 : Nat}
    {r1 : MarkResult} {ev1 : List AttendanceUpdate}
    (h : markAttendance st code sid nm1 t1 = (st1, r1, ev1))
    (hok : r1 ≠ .notFound)
    (hinv : st.all uniqueAttendees = true) :
    markAttendance st1 code sid nm2 t2 = (st1, .alreadyMarked, []) ∧
    st1.all uniqueAttendees = true := by
  cases r1 with
  | notFound => exact absurd rfl hok
  | alreadyMarked =>
    obtain ⟨rfl, -, s, hfind, hmem⟩ := mark_already_split h
    exact ⟨mark_of_already hfind hmem, hinv⟩
  | marked rn =>
    obtain ⟨pre, s, post, rfl, hpre, hs, hnot, hrn, rfl, -⟩ := mark_marked_split h
    have hs' : matchesCode code
        { s with attendees := s.attendees ++ [⟨sid, rn, t1, "qr"⟩] } = true := by
      rw [matchesCode_append_record]; exact hs
    have hfind1 := find?_append_first hpre hs' post
    have hmem : (({ s with attendees := s.attendees ++ [⟨sid, rn, t1, "qr"⟩] } :
        Session).attendees.any (fun att => att.studentId == sid)) = true := by
      simp
    refine ⟨mark_of_already hfind1 hmem, ?_⟩
    have hno : ∀ r ∈ s.attendees, r.studentId ≠ sid := by
      intro r hr heq
      have : (s.attendees.any (fun att => att.studentId == sid)) = true :=
        List.any_eq_true.mpr ⟨r, hr, by simp [heq]⟩
      rw [this] at hnot
      exact Bool.true_eq_false.mp hnot
    simp only [List.all_append, List.all_cons, Bool.and_eq_true] at hinv ⊢
    refine ⟨hinv.1, ?_, hinv.2.2⟩
    have hsnd : (s.attendees.map (fun r => r.studentId)).Nodup :=
      (noDup_iff_Nodup _).mp hinv.2.1
    rw [uniqueAttendees, noDup_iff_Nodup]
    simp only [List.map_append, List.map_cons, List.map_nil]
    rw [List.nodup_append]
    refine ⟨hsnd, List.nodup_singleton _, ?_⟩
    intro a ha hb
    simp only [List.mem_singleton] at hb
    obtain ⟨r, hr, rfl⟩ := List.mem_map.mp ha
    exact hno r hr hb

/-- C1 witness. -/
theorem mark_second_call_idempotent_witness :
    markAttendance [demoMarked] demoSession.sessionCode "CS001" none 9 =
      ([demoMarked], .alreadyMarked, []) ∧
    [demoMarked].all uniqueAttendees = true :=
  mark_second_call_idempotent
    (by decide :
      markAttendance [demoSession] demoSession.sessionCode "CS001" none 5 =
        ([demoMarked], .marked "Student CS001", [demoEvent]))
    (by decide) (by decide)

/-- C2 counterexample: the claim says the stored capture-method tag is
"scan", but at a concrete input the record appended by a successful mark
carries the tag "qr". -/
theorem mark_method_tag_not_scan :
    ¬ (∀ (st st1 : List Session) (code sid : String) (nm : Option String) (now : Nat)
        (rn : String) (ev : List AttendanceUpdate),
        markAttendance st code sid nm now = (st1, .marked rn, ev) →
        ∀ s ∈ st1, ∀ r ∈ s.attendees, r.method = "scan") := by
  intro hall
  have h := hall [demoSession] [demoMarked] demoSession.sessionCode "CS001" none 5
    "Student CS001" [demoEvent] (by decide) demoMarked (by decide) demoRecord (by decide)
  exact absurd h (by decide)

/-- C2 (amended: the capture-method tag is the literal "qr", not "scan"):
a successful mark appends exactly one record, at the end of the attendee
sequence of the first active session with the code, with capture timestamp
equal to the current time of the mark and method tag "qr". -/
theorem mark_appends_record_at_end
    {pre post : List Session} {s : Session} {code sid : String}
    {nm : Option String} {now : Nat}
    (hpre : ∀ x ∈ pre, matchesCode code x = false)
    (hs : matchesCode code s = true)
    (hnew : (s.attendees.any (fun att => att.studentId == sid)) = false) :
    (markAttendance (pre ++ s :: post) code sid nm now).1 =
      pre ++ { s with attendees := s.attendees ++
        [{ studentId := sid, studentName := jsOrElse nm ("Student " ++ sid),
           timestamp := now, method := "qr" }] } :: post ∧
    (markAttendance (pre ++ s :: post) code sid nm now).2.1.isMarked = true := by
  rw [mark_fresh_eq hpre hs hnew]
  exact ⟨rfl, rfl⟩

/-- C2 witness. -/
theorem mark_appends_record_at_end_witness :
    (markAttendance ([] ++ demoSession :: []) demoSession.sessionCode "CS001" none 5).1 =
      [] ++ demoMarked :: [] ∧
    (markAttendance ([] ++ demoSession :: []) demoSession.sessionCode "CS001"
      none 5).2.1.isMarked = true := by
  exact mark_appends_record_at_end (by decide) (by decide) (by decide)

/-- C9 counterexample: with a supplied-but-empty participant name the
resolved display name is the synthesized placeholder, not the supplied
name, so "equals the supplied name when one was given" fails at a
concrete input. -/
theorem mark_supplied_name_not_always_used :
    ¬ (∀ (st st1 : List Session) (code sid n : String) (now : Nat)
        (rn : String) (ev : List AttendanceUpdate),
        markAttendance st code sid (some n) now = (st1, .marked rn, ev) → rn = n) := by
  intro hall
  have h := hall [demoSession] [demoMarked] demoSession.sessionCode "CS001" "" 5
    "Student CS001" [demoEvent] (by decide)
  exact absurd h (by decide)

/-- C9 (amended: the placeholder fallback also fires on a supplied empty
name, per JS truthiness): a fresh mark returns success with the resolved
display name, equal to the supplied name when a nonempty one was given
and to "Student " followed by the id when the name was absent or empty;
the stored record carries the same resolved name. -/
theorem mark_resolved_display_name
    {pre post : List Session} {s : Session} {code sid : String}
    {nm : Option String} {now : Nat}
    (hpre : ∀ x ∈ pre, matchesCode code x = false)
    (hs : matchesCode code s = true)
    (hnew : (s.attendees.any (fun att => att.studentId == sid)) = false) :
    (markAttendance (pre ++ s :: post) code sid nm now).2.1 =
      .marked (jsOrElse nm ("Student " ++ sid)) ∧
    (∀ n, nm = some n → n ≠ "" → jsOrElse nm ("Student " ++ sid) = n) ∧
    ((nm = none ∨ nm = some "") → jsOrElse nm ("Student " ++ sid) = "Student " ++ sid) ∧
    (markAttendance (pre ++ s :: post) code sid nm now).1 =
      pre ++ { s with attendees := s.attendees ++
        [{ studentId := sid, studentName := jsOrElse nm ("Student " ++ sid),
           timestamp := now, method := "qr" }] } :: post := by
  rw [mark_fresh_eq hpre hs hnew]
  refine ⟨rfl, ?_, ?_, rfl⟩
  · intro n hn hne
    subst hn
    simp [jsOrElse, hne]
  · rintro (rfl | rfl) <;> simp [jsOrElse]

/-- C9 witness. -/
theorem mark_resolved_display_name_witness :
    (markAttendance ([] ++ demoSession :: []) demoSession.sessionCode "CS001"
        (some "Alice Johnson") 5).2.1 =
      .marked (jsOrElse (some "Alice Johnson") ("Student " ++ "CS001")) ∧
    (markAttendance ([] ++ demoSession :: []) demoSession.sessionCode "CS001"
        (some "Alice Johnson") 5).1 =
      [] ++ { demoSession with attendees := demoSession.attendees ++
        [{ studentId := "CS001",
           studentName := jsOrElse (some "Alice Johnson") ("Student " ++ "CS001"),
           timestamp := 5, method := "qr" }] } :: [] := by
  exact ⟨(mark_resolved_display_name (by decide) (by decide) (by decide)).1,
    (mark_resolved_display_name (by decide) (by decide) (by decide)).2.2.2⟩

/-- C8: a fresh mark emits exactly one broadcast event carrying the
session code, participant id, resolved name, a total equal to the
session's attendee count right after the append, and the capture
timestamp; a non-appending mark, a start, and an end emit none. -/
theorem broadcast_exactly_on_fresh_mark :
    (∀ (pre post : List Session) (s : Session) (code sid : String)
        (nm : Option String) (now : Nat),
      (∀ x ∈ pre, matchesCode code x = false) →
      matchesCode code s = true →
      (s.attendees.any (fun att => att.studentId == sid)) = false →
      (markAttendance (pre ++ s :: post) code sid nm now).2.2 =
        [{ sessionCode := code, studentId := sid,
           studentName := jsOrElse nm ("Student " ++ sid),
           totalAttendees := s.attendees.length + 1, timestamp := now }] ∧
      ((markAttendance (pre ++ s :: post) code sid nm now).1.find?
          (matchesCode code)).map (fun x => x.attendees.length) =
        some (s.attendees.length + 1)) ∧
    (∀ (st : List Session) (code sid : String) (nm : Option String) (now : Nat),
      (markAttendance st code sid nm now).2.1.isMarked = false →
      (markAttendance st code sid nm now).2.2 = []) ∧
    (∀ (st : List Session) (u : User) (cn : Option String) (now : Nat) (r : String),
      (startSession st u cn now r).2.2 = []) ∧
    (∀ (st : List Session) (u : User) (sid now : Nat),
      (endSession st u sid now).2.2 = []) := by
  refine ⟨?_, ?_, ?_, ?_⟩
  · intro pre post s code sid nm now hpre hs hnew
    rw [mark_fresh_eq hpre hs hnew]
    refine ⟨rfl, ?_⟩
    have hs' : matchesCode code { s with attendees := s.attendees ++
        [{ studentId := sid, studentName := jsOrElse nm ("Student " ++ sid),
           timestamp := now, method := "qr" }] } = true := by
      rw [matchesCode_append_record]; exact hs
    rw [find?_append_first hpre hs' post]
    simp
  · intro st code sid nm now h
    cases hfind : st.find? (matchesCode code) with
    | none => rw [mark_of_find?_none hfind]
    | some s =>
      by_cases hm : (s.attendees.any (fun att => att.studentId == sid)) = true
      · rw [mark_of_already hfind hm]
      · obtain ⟨pre, post, rfl, hpre, hs⟩ := find?_split hfind
        rw [mark_fresh_eq hpre hs (Bool.eq_false_iff.mpr hm)] at h
        exact absurd h (by simp [MarkResult.isMarked])
  · intro st u cn now r
    by_cases h : u.role = "faculty" <;> simp [startSession, h]
  · intro st u sid now
    cases hfind : st.find? (fun x => x.id == sid) with
    | none => rw [end_of_find?_none hfind]
    | some s =>
      by_cases hown : s.professorId = u.id
      · obtain ⟨pre, post, rfl, hpre, hs⟩ := find?_split hfind
        rw [end_ok_eq hpre hs hown post]
      · rw [end_of_other_owner hfind hown]

/-- C8 witness. -/
theorem broadcast_exactly_on_fresh_mark_witness :
    (markAttendance ([] ++ demoSession :: []) demoSession.sessionCode "CS001" none 5).2.2 =
      [{ sessionCode := demoSession.sessionCode, studentId := "CS001",
         studentName := jsOrElse none ("Student " ++ "CS001"),
         totalAttendees := demoSession.attendees.length + 1, timestamp := 5 }] ∧
    ((markAttendance ([] ++ demoSession :: []) demoSession.sessionCode "CS001"
        none 5).1.find? (matchesCode demoSession.sessionCode)).map
      (fun x => x.attendees.length) = some (demoSession.attendees.length + 1) := by
  exact broadcast_exactly_on_fresh_mark.1 [] [] demoSession demoSession.sessionCode
    "CS001" none 5 (by decide) (by decide) (by decide)

/-- C3: a mark against a code with no matching active session fails with
the single `notFound` outcome and leaves the registry unchanged; any
non-`notFound` mark implies an active session with the code existed; and
after a successful `end`, a mark against the ended session's code fails
with that same `notFound` outcome, indistinguishable from a never-issued
code. -/
theorem mark_fails_without_active_session
    {st : List Session} {u : User} {sessionId now : Nat} {s : Session}
    {sid : String} {nm : Option String} {t : Nat}
    (hfind : st.find? (fun x => x.id == sessionId) = some s)
    (hown : s.professorId = u.id)
    (hcode : ∀ x ∈ st, x.sessionCode = s.sessionCode → x.isActive = true → x.id = s.id)
    (hids : (st.map Session.id).Nodup) :
    (∀ (st2 : List Session) (code : String),
      (∀ x ∈ st2, x.sessionCode = code → x.isActive = false) →
      markAttendance st2 code sid nm t = (st2, .notFound, [])) ∧
    (∀ (st2 : List Session) (code : String),
      (markAttendance st2 code sid nm t).2.1 ≠ .notFound →
      ∃ x ∈ st2, x.sessionCode = code ∧ x.isActive = true) ∧
    markAttendance (endSession st u sessionId now).1 s.sessionCode sid nm t =
      ((endSession st u sessionId now).1, .notFound, []) := by
  obtain ⟨pre, post, hst, hpre, hsid⟩ := find?_split hfind
  refine ⟨?_, ?_, ?_⟩
  · intro st2 code hinactive
    refine mark_of_find?_none (List.find?_eq_none.mpr ?_)
    intro x hx
    simp only [matchesCode, Bool.and_eq_true, beq_iff_eq]
    rintro ⟨hc, ha⟩
    rw [hinactive x hx hc] at ha
    exact Bool.false_ne_true ha
  · intro st2 code hne
    cases hfind2 : st2.find? (matchesCode code) with
    | none => rw [mark_of_find?_none hfind2] at hne; exact absurd rfl hne
    | some x =>
      have hx : x ∈ st2 := List.mem_of_find?_eq_some hfind2
      have hmc := List.find?_some hfind2
      simp only [matchesCode, Bool.and_eq_true, beq_iff_eq] at hmc
      exact ⟨x, hx, hmc.1, hmc.2⟩
  · subst hst
    rw [end_ok_eq hpre hsid hown post]
    refine mark_of_find?_none (List.find?_eq_none.mpr ?_)
    have hnodup := hids
    rw [List.map_append, List.map_cons, List.nodup_append] at hnodup
    obtain ⟨-, hmid, hdisj⟩ := hnodup
    have hid_ne : ∀ x, x ∈ pre ∨ x ∈ post → x.id ≠ s.id := by
      rintro x (hx | hx) hxid
      · exact hdisj (List.mem_map.mpr ⟨x, hx, rfl⟩) (by simp [hxid])
      · have : s.id ∉ post.map Session.id := (List.nodup_cons.mp hmid).1
        exact this (List.mem_map.mpr ⟨x, hx, hxid⟩)
    intro x hx
    simp only [matchesCode, Bool.and_eq_true, beq_iff_eq]
    rintro ⟨hc, ha⟩
    rcases List.mem_append.mp hx with hx | hx
    · exact hid_ne x (Or.inl hx)
        (hcode x (by simp [List.mem_append, hx]) hc (by simpa using ha))
    · rcases List.mem_cons.mp hx with rfl | hx
      · simp at ha
      · exact hid_ne x (Or.inr hx)
          (hcode x (by simp [List.mem_append, hx]) hc (by simpa using ha))

/-- C3 witness. -/
theorem mark_fails_without_active_session_witness :
    markAttendance (endSession [demoSession] demoFaculty 1 200).1 demoSession.sessionCode
        "CS001" none 9 =
      ((endSession [demoSession] demoFaculty 1 200).1, .notFound, []) := by
  exact (mark_fails_without_active_session
    (by decide : ([demoSession] : List Session).find? (fun x => x.id == 1) =
      some demoSession)
    (by decide : demoSession.professorId = demoFaculty.id)
    (by decide : ∀ x ∈ ([demoSession] : List Session),
      x.sessionCode = demoSession.sessionCode → x.isActive = true → x.id = demoSession.id)
    (by decide : (([demoSession] : List Session).map Session.id).Nodup)).2.2

/-- C5: `start` is forbidden (and the registry unchanged) for every
non-faculty requester; `end` is `notFound` when no session has the id,
and forbidden (registry unchanged) when the requester is not the
session's owning faculty identity. -/
theorem role_and_owner_gates :
    (∀ (st : List Session) (u : User) (cn : Option String) (now : Nat) (r : String),
      u.role ≠ "faculty" → startSession st u cn now r = (st, .forbidden, [])) ∧
    (∀ (st : List Session) (u : User) (sid now : Nat),
      (∀ x ∈ st, x.id ≠ sid) → endSession st u sid now = (st, .notFound, [])) ∧
    (∀ (st : List Session) (u : User) (sid now : Nat) (s : Session),
      st.find? (fun x => x.id == sid) = some s → s.professorId ≠ u.id →
      endSession st u sid now = (st, .forbidden, [])) := by
  refine ⟨?_, ?_, ?_⟩
  · intro st u cn now r h
    simp [startSession, h]
  · intro st u sid now h
    exact end_of_find?_none (List.find?_eq_none.mpr (fun x hx => by simp [h x hx]))
  · intro st u sid now s hfind hown
    exact end_of_other_owner hfind hown

/-- C5 witness. -/
theorem role_and_owner_gates_witness :
    startSession [] demoStudent none 7 "abc" = ([], .forbidden, []) ∧
    endSession [demoSession] demoFaculty 2 9 = ([demoSession], .notFound, []) ∧
    endSession [demoSession] otherFaculty 1 9 = ([demoSession], .forbidden, []) :=
  ⟨role_and_owner_gates.1 [] demoStudent none 7 "abc" (by decide),
   role_and_owner_gates.2.1 [demoSession] demoFaculty 2 9 (by decide),
   role_and_owner_gates.2.2 [demoSession] otherFaculty 1 9 demoSession
     (by decide) (by decide)⟩

/-- C6: a successful `end` by the owner sets `isActive := false` and
records the end timestamp, leaving the session's other fields and every
other session untouched; re-invoking `end` on the already-inactive
session succeeds again and merely overwrites the end timestamp. -/
theorem end_session_frame
    {pre post : List Session} {s : Session} {u : User} {sessionId now now2 : Nat}
    (hpre : ∀ x ∈ pre, (x.id == sessionId) = false)
    (hs : (s.id == sessionId) = true)
    (hown : s.professorId = u.id) :
    endSession (pre ++ s :: post) u sessionId now =
      (pre ++ { s with isActive := false, endTime := some now } :: post, .ok, []) ∧
    endSession (pre ++ { s with isActive := false, endTime := some now } :: post) u
        sessionId now2 =
      (pre ++ { s with isActive := false, endTime := some now2 } :: post, .ok, []) := by
  refine ⟨end_ok_eq hpre hs hown post, ?_⟩
  have hs2 : (({ s with isActive := false, endTime := some now } : Session).id ==
      sessionId) = true := hs
  have hown2 : ({ s with isActive := false, endTime := some now } :
      Session).professorId = u.id := hown
  exact end_ok_eq hpre hs2 hown2 post

/-- C6 witness. -/
theorem end_session_frame_witness :
    endSession ([] ++ demoSession :: []) demoFaculty 1 200 =
      ([] ++ { demoSession with isActive := false, endTime := some 200 } :: [],
        .ok, []) ∧
    endSession ([] ++ { demoSession with isActive := false, endTime := some 200 } :: [])
        demoFaculty 1 300 =
      ([] ++ { demoSession with isActive := false, endTime := some 300 } :: [],
        .ok, []) := by
  exact end_session_frame (by decide) (by decide) (by decide)

/-- `roundDiv sum n` is the nearest integer to `sum / n` with halves
rounded up: `roundDiv sum n - 1/2 ≤ sum / n < roundDiv sum n + 1/2`,
stated over naturals after clearing denominators. -/
theorem roundDiv_nearest (sum n : Nat) (h : 0 < n) :
    2 * roundDiv sum n * n ≤ 2 * sum + n ∧
    2 * sum + n < 2 * roundDiv sum n * n + 2 * n := by
  unfold roundDiv
  have h1 := Nat.div_add_mod (2 * sum + n) (2 * n)
  have h2 : (2 * sum + n) % (2 * n) < 2 * n := Nat.mod_lt _ (by omega)
  constructor
  · calc 2 * ((2 * sum + n) / (2 * n)) * n = 2 * n * ((2 * sum + n) / (2 * n)) := by
          ring
      _ ≤ 2 * n * ((2 * sum + n) / (2 * n)) + (2 * sum + n) % (2 * n) :=
          Nat.le_add_right _ _
      _ = 2 * sum + n := h1
  · calc 2 * sum + n
        = 2 * n * ((2 * sum + n) / (2 * n)) + (2 * sum + n) % (2 * n) := h1.symm
      _ < 2 * n * ((2 * sum + n) / (2 * n)) + 2 * n :=
          Nat.add_lt_add_left h2 _
      _ = 2 * ((2 * sum + n) / (2 * n)) * n + 2 * n := by ring

/-- C7: the principal department summary reports, per department, the
department label, the student count, the count of students strictly below
75, a mean attendance that is the nearest integer to the arithmetic mean
(halves up; 0 for an empty department), and the remark banded at ≥ 85 /
≥ 75; on the seed roster the CSE department has attendances
[94, 74, 80, 69], mean 79 and remark "Good". -/
theorem principal_dept_summary :
    (∀ (roster : List Student) (dept : String),
      (deptSummary roster dept).department = dept ∧
      (deptSummary roster dept).totalStudents = (deptStudentsOf roster dept).length ∧
      (deptSummary roster dept).atRiskStudents =
        ((deptStudentsOf roster dept).filter (fun s => s.attendance < 75)).length ∧
      ((deptStudentsOf roster dept).length = 0 →
        (deptSummary roster dept).avgAttendance = 0) ∧
      (0 < (deptStudentsOf roster dept).length →
        2 * (deptSummary roster dept).avgAttendance *
            (deptStudentsOf roster dept).length ≤
          2 * sumAttendance (deptStudentsOf roster dept) +
            (deptStudentsOf roster dept).length ∧
        2 * sumAttendance (deptStudentsOf roster dept) +
            (deptStudentsOf roster dept).length <
          2 * (deptSummary roster dept).avgAttendance *
              (deptStudentsOf roster dept).length +
            2 * (deptStudentsOf roster dept).length) ∧
      (deptSummary roster dept).remark =
        (if (deptSummary roster dept).avgAttendance ≥ 85 then "Excellent"
         else if (deptSummary roster dept).avgAttendance ≥ 75 then "Good"
         else "Needs Improvement")) ∧
    (deptStudentsOf students "CSE").map Student.attendance = [94, 74, 80, 69] ∧
    deptSummary students "CSE" =
      { department := "CSE", avgAttendance := 79, atRiskStudents := 2,
        totalStudents := 4, remark := "Good" } ∧
    deptSummary students "CSE" ∈ principalAnalytics students := by
  refine ⟨?_, by decide, by decide, by decide⟩
  intro roster dept
  refine ⟨rfl, rfl, rfl, ?_, ?_, rfl⟩
  · intro h0
    simp [deptSummary, h0]
  · intro hpos
    have havg : (deptSummary roster dept).avgAttendance =
        roundDiv (sumAttendance (deptStudentsOf roster dept))
          (deptStudentsOf roster dept).length := by
      simp [deptSummary, hpos]
    rw [havg]
    exact roundDiv_nearest _ _ hpos

/-- C7 witness. -/
theorem principal_dept_summary_witness :
    (deptSummary students "MATH").avgAttendance = 0 ∧
    (2 * (deptSummary students "CSE").avgAttendance *
        (deptStudentsOf students "CSE").length ≤
      2 * sumAttendance (deptStudentsOf students "CSE") +
        (deptStudentsOf students "CSE").length ∧
    2 * sumAttendance (deptStudentsOf students "CSE") +
        (deptStudentsOf students "CSE").length <
      2 * (deptSummary students "CSE").avgAttendance *
          (deptStudentsOf students "CSE").length +
        2 * (deptStudentsOf students "CSE").length) :=
  ⟨(principal_dept_summary.1 students "MATH").2.2.2.1 (by decide),
   (principal_dept_summary.1 students "CSE").2.2.2.2.1 (by decide)⟩

/-- C10: for a requester whose department matches no roster entry, the
HOD and faculty analytics divide by the zero student count with no guard:
the mean attendance (and mean marks) is the non-finite JS quotient
(`NaN`, encoded `none` here), not 0, while `totalStudents` is 0 and the
at-risk list is empty; the principal summary by contrast yields 0 for an
empty department. -/
theorem empty_department_mean_is_nan
    {roster : List Student} {user : User}
    (h : ∀ s ∈ roster, user.department ≠ some s.department) :
    hodAnalytics roster user =
      { department := user.department, totalStudents := 0, avgAttendance := none,
        atRiskStudents := [] } ∧
    facultyAnalytics roster user =
      { students := [],
        classStats :=
          ClassStats.mk 0 none none 0 } ∧
    (hodAnalytics roster user).avgAttendance ≠ some 0 ∧
    (facultyAnalytics roster user).classStats.avgAttendance ≠ some 0 ∧
    (∀ dept, (∀ s ∈ roster, s.department ≠ dept) →
      (deptSummary roster dept).avgAttendance = 0) := by
  have hfilter : roster.filter (inUserDept user) = [] := by
    rw [List.filter_eq_nil_iff]
    intro x hx
    simp only [inUserDept, beq_iff_eq]
    exact h x hx
  have h1 : hodAnalytics roster user =
      { department := user.department, totalStudents := 0, avgAttendance := none,
        atRiskStudents := [] } := by
    simp [hodAnalytics, hfilter, jsRoundDiv?]
  have h2 : facultyAnalytics roster user =
      { students := [],
        classStats :=
          ClassStats.mk 0 none none 0 } := by
    simp [facultyAnalytics, hfilter, jsRoundDiv?]
  refine ⟨h1, h2, ?_, ?_, ?_⟩
  · rw [h1]
    simp
  · rw [h2]
    simp
  · intro dept hd
    have hf : deptStudentsOf roster dept = [] := by
      rw [deptStudentsOf, List.filter_eq_nil_iff]
      intro x hx
      simp only [beq_iff_eq]
      exact hd x hx
    simp [deptSummary, hf]

/-- C10 witness. -/
theorem empty_department_mean_is_nan_witness :
    hodAnalytics students mathHod =
      { department := mathHod.department, totalStudents := 0, avgAttendance := none,
        atRiskStudents := [] } ∧
    facultyAnalytics students mathHod =
      { students := [],
        classStats :=
          ClassStats.mk 0 none none 0 } ∧
    (hodAnalytics students mathHod).avgAttendance ≠ some 0 ∧
    (facultyAnalytics students mathHod).classStats.avgAttendance ≠ some 0 :=
  ⟨(empty_department_mean_is_nan (by decide)).1,
   (empty_department_mean_is_nan (by decide)).2.1,
   (empty_department_mean_is_nan (by decide)).2.2.1,
   (empty_department_mean_is_nan (by decide)).2.2.2.1⟩

/-! ## Decimal representation facts for session-code uniqueness -/

theorem decRepr_lt {n : Nat} (h : n < 10) : decRepr n = [Nat.digitChar n] := by
  rw [decRepr]
  simp [h]

theorem decRepr_ge {n : Nat} (h : ¬ n < 10) :
    decRepr n = decRepr (n / 10) ++ [Nat.digitChar (n % 10)] := by
  rw [decRepr]
  simp [h]

theorem toDigitsCore_acc (b : Nat) : ∀ (f n : Nat) (l : List Char),
    Nat.toDigitsCore b f n l = Nat.toDigitsCore b f n [] ++ l := by
  intro f
  induction f with
  | zero => intro n l; simp [Nat.toDigitsCore]
  | succ f ih =>
    intro n l
    simp only [Nat.toDigitsCore]
    by_cases h : n / b = 0
    · simp [h]
    · simp only [h, if_false]
      rw [ih (n / b) (Nat.digitChar (n % b) :: l), ih (n / b) [Nat.digitChar (n % b)]]
      simp

theorem toDigitsCore_eq_decRepr : ∀ (f n : Nat), n < f →
    Nat.toDigitsCore 10 f n [] = decRepr n := by
  intro f
  induction f with
  | zero => intro n h; exact absurd h (Nat.not_lt_zero n)
  | succ f ih =>
    intro n h
    simp only [Nat.toDigitsCore]
    by_cases h10 : n / 10 = 0
    · have hn : n < 10 := by omega
      rw [decRepr_lt hn]
      simp [h10, Nat.mod_eq_of_lt hn]
    · have hn : ¬ n < 10 := fun hc => h10 (Nat.div_eq_of_lt hc)
      have hlt : n / 10 < f := by
        have := Nat.div_lt_self (by omega : 0 < n) (by omega : 1 < 10)
        omega
      rw [if_neg h10, toDigitsCore_acc, ih (n / 10) hlt, decRepr_ge hn]

theorem repr_data_eq_decRepr (n : Nat) : (Nat.repr n).data = decRepr n := by
  show (Nat.toDigits 10 n).asString.data = decRepr n
  rw [Nat.toDigits, toDigitsCore_eq_decRepr (n + 1) n (Nat.lt_succ_self n)]
  rfl

theorem digitChar_fin_ne_dash : ∀ a : Fin 10, Nat.digitChar a ≠ Char.ofNat 45 := by
  decide

theorem digitChar_fin_inj : ∀ a b : Fin 10,
    Nat.digitChar a = Nat.digitChar b → a = b := by
  decide

theorem digitChar_inj {a b : Nat} (ha : a < 10) (hb : b < 10)
    (h : Nat.digitChar a = Nat.digitChar b) : a = b :=
  congrArg Fin.val (digitChar_fin_inj ⟨a, ha⟩ ⟨b, hb⟩ h)

theorem dash_not_mem_decRepr (n : Nat) : Char.ofNat 45 ∉ decRepr n := by
  induction n using Nat.strong_induction_on with
  | _ n ih =>
    by_cases h : n < 10
    · rw [decRepr_lt h]
      intro hc
      rcases List.mem_singleton.mp hc with hc
      exact digitChar_fin_ne_dash ⟨n, h⟩ hc.symm
    · rw [decRepr_ge h]
      intro hc
      rcases List.mem_append.mp hc with hc | hc
      · exact ih (n / 10) (Nat.div_lt_self (by omega) (by omega)) hc
      · rcases List.mem_singleton.mp hc with hc
        exact digitChar_fin_ne_dash ⟨n % 10, Nat.mod_lt _ (by omega)⟩ hc.symm

theorem decRepr_ne_nil (n : Nat) : decRepr n ≠ [] := by
  by_cases h : n < 10
  · rw [decRepr_lt h]; simp
  · rw [decRepr_ge h]; simp

theorem decRepr_inj : ∀ m n : Nat, decRepr m = decRepr n → m = n := by
  intro m
  induction m using Nat.strong_induction_on with
  | _ m ih =>
    intro n h
    by_cases hm : m < 10 <;> by_cases hn : n < 10
    · rw [decRepr_lt hm, decRepr_lt hn] at h
      exact digitChar_inj hm hn (List.singleton_injective h)
    · exfalso
      have h1 : (decRepr m).length = 1 := by rw [decRepr_lt hm]; rfl
      have h2 : 2 ≤ (decRepr n).length := by
        rw [decRepr_ge hn, List.length_append]
        have := decRepr_ne_nil (n / 10)
        cases hc : decRepr (n / 10) with
        | nil => exact absurd hc this
        | cons a l => simp [hc]
      rw [h] at h1
      omega
    · exfalso
      have h1 : (decRepr n).length = 1 := by rw [decRepr_lt hn]; rfl
      have h2 : 2 ≤ (decRepr m).length := by
        rw [decRepr_ge hm, List.length_append]
        have := decRepr_ne_nil (m / 10)
        cases hc : decRepr (m / 10) with
        | nil => exact absurd hc this
        | cons a l => simp [hc]
      rw [h] at h2
      omega
    · rw [decRepr_ge hm, decRepr_ge hn] at h
      have h' := congrArg List.reverse h
      simp only [List.reverse_append, List.reverse_cons, List.reverse_nil,
        List.nil_append, List.singleton_append, List.cons.injEq] at h'
      obtain ⟨hd, htl⟩ := h'
      have hmod : m % 10 = n % 10 :=
        digitChar_inj (Nat.mod_lt _ (by omega)) (Nat.mod_lt _ (by omega)) hd
      have hdiv : m / 10 = n / 10 :=
        ih (m / 10) (Nat.div_lt_self (by omega) (by omega)) (n / 10)
          (List.reverse_injective htl)
      omega

theorem append_sep_inj : ∀ (l1 l2 r1 r2 : List Char),
    Char.ofNat 45 ∉ l1 → Char.ofNat 45 ∉ l2 →
    l1 ++ Char.ofNat 45 :: r1 = l2 ++ Char.ofNat 45 :: r2 → l1 = l2 ∧ r1 = r2 := by
  intro l1
  induction l1 with
  | nil =>
    intro l2 r1 r2 h1 h2 h
    cases l2 with
    | nil => simpa using h
    | cons c l2 =>
      simp only [List.nil_append, List.cons_append, List.cons.injEq] at h
      exact absurd (h.1 ▸ List.mem_cons_self c l2) h2
  | cons a l1 ih =>
    intro l2 r1 r2 h1 h2 h
    cases l2 with
    | nil =>
      simp only [List.cons_append, List.nil_append, List.cons.injEq] at h
      exact absurd (h.1 ▸ List.mem_cons_self a l1) h1
    | cons b l2 =>
      simp only [List.cons_append, List.cons.injEq] at h
      obtain ⟨rfl, h⟩ := h
      obtain ⟨he, hr⟩ := ih l2 r1 r2 (fun hx => h1 (List.mem_cons_of_mem _ hx))
        (fun hx => h2 (List.mem_cons_of_mem _ hx)) h
      exact ⟨by rw [he], hr⟩

/-- C4 counterexample: the generator does not by itself guarantee
distinct codes across distinct calls — two calls that observe the same
`Date.now()` millisecond and draw the same random suffix produce the
same code. -/
theorem generateSessionCode_not_always_distinct :
    ¬ (∀ (time : Nat → Nat) (rand : Nat → String) (i j : Nat), i ≠ j →
        generateSessionCode (time i) (rand i) ≠ generateSessionCode (time j) (rand j)) := by
  intro hall
  exact hall (fun _ => 1700000000000) (fun _ => "a1b2c3d4") 0 1 (by decide) rfl

/-- C4 (amended: distinctness holds exactly when the generator's inputs
differ): `generateSessionCode` is injective in the pair (millisecond
timestamp, random suffix), so two generated codes coincide only when both
the wall-clock milliseconds and the random suffix coincide; the code maps
distinct draws to distinct codes but does not prevent a repeated draw. -/
theorem generateSessionCode_injective {t1 t2 : Nat} {s1 s2 : String}
    (heq : generateSessionCode t1 s1 = generateSessionCode t2 s2) :
    t1 = t2 ∧ s1 = s2 := by
  have hd := congrArg String.data heq
  simp only [generateSessionCode, String.data_append] at hd
  simp only [List.append_assoc, List.cons_append, List.nil_append,
    List.singleton_append, List.cons.injEq, true_and] at hd
  rw [repr_data_eq_decRepr, repr_data_eq_decRepr] at hd
  obtain ⟨h1, h2⟩ := append_sep_inj _ _ _ _ (dash_not_mem_decRepr t1)
    (dash_not_mem_decRepr t2) hd
  exact ⟨decRepr_inj _ _ h1, String.ext h2⟩

/-- C4 witness. -/
theorem generateSessionCode_injective_witness :
    (1700000000000 : Nat) = 1700000000000 ∧ ("k5j2m9qp" : String) = "k5j2m9qp" :=
  generateSessionCode_injective
    (rfl : generateSessionCode 1700000000000 "k5j2m9qp" =
      generateSessionCode 1700000000000 "k5j2m9qp")

end SmartAttend
